import Mathlib

/-!
Verification of the log-normalization and signal-interpretation core of the
`personal-assistant-backend` repository (`src/server.js`).

The JavaScript helpers are shallowly embedded as Lean functions: JS numbers
become `ℚ` (with `Option ℚ` for `null` / non-finite values), strings remain
`String`, and every helper follows the source line by line.  The only
behaviour not in `src/` is that of language built-ins and the third-party
CSV parser; those are modelled where needed and documented as such.
-/

attribute [local semireducible] Rat.ofScientific Rat.mul Rat.inv Rat.add Rat.sub

deriving instance DecidableEq for Except

namespace PasBackend

/-- Physical pressure units recognised by the boost heuristics. -/
inductive PUnitKind where
  | psi
  | kPa
  | bar
deriving DecidableEq, Repr

/-- The record produced by `minMax` in `server.js`: `{ min, max, count }`.
Note the source record has no `avg` field. -/
structure MinMaxStats where
  min : ℚ
  max : ℚ
  count : ℕ
deriving DecidableEq, Repr

/-! ### Model of the ECMAScript `Number(string)` conversion

`server.js` relies on the JS builtin `Number` (inside `toNumberLoose` and
`looksLikeHeader`).  Modelled from the spec: the decimal fragment of the
ECMAScript StringToNumber grammar — optional sign, digits with optional
fractional part and optional exponent.  Inputs outside this fragment
(hex/octal/binary literals, `Infinity`) are mapped to `none`, which the
callers treat exactly like the non-finite results they produce in JS. -/

/-- Value of a digit string, most significant digit first. -/
def digitsVal (l : List Char) : ℕ :=
  l.foldl (fun a c => a * 10 + (c.toNat - 48)) 0

/-- Optional leading sign of a JS numeric literal. -/
def parseSign (l : List Char) : ℚ × List Char :=
  match l with
  | '+' :: r => (1, r)
  | '-' :: r => (-1, r)
  | _ => (1, l)

/-- Optional exponent tail (`e`/`E`, optional sign, digits) applied to an
already-parsed mantissa; anything trailing makes the whole literal invalid. -/
def parseExpTail (m : ℚ) (rest : List Char) : Option ℚ :=
  match rest with
  | [] => some m
  | 'e' :: r =>
    let sg : ℤ × List Char :=
      match r with
      | '+' :: rr => (1, rr)
      | '-' :: rr => (-1, rr)
      | _ => (1, r)
    let ed := sg.2.takeWhile Char.isDigit
    let r2 := sg.2.dropWhile Char.isDigit
    if ed.isEmpty || !r2.isEmpty then none
    else some (m * (10 : ℚ) ^ (sg.1 * (digitsVal ed : ℤ)))
  | 'E' :: r =>
    let sg : ℤ × List Char :=
      match r with
      | '+' :: rr => (1, rr)
      | '-' :: rr => (-1, rr)
      | _ => (1, r)
    let ed := sg.2.takeWhile Char.isDigit
    let r2 := sg.2.dropWhile Char.isDigit
    if ed.isEmpty || !r2.isEmpty then none
    else some (m * (10 : ℚ) ^ (sg.1 * (digitsVal ed : ℤ)))
  | _ => none

/-- Model of `Number(s)` on an already-trimmed string, returning `none`
for values that are `NaN` or non-finite (the only distinction the callers
in `server.js` make, via `Number.isFinite`). -/
def jsNumber (s : String) : Option ℚ :=
  let p := parseSign s.toList
  let ip := p.2.takeWhile Char.isDigit
  let r1 := p.2.dropWhile Char.isDigit
  match r1 with
  | '.' :: r2 =>
    let fp := r2.takeWhile Char.isDigit
    let r3 := r2.dropWhile Char.isDigit
    if ip.isEmpty && fp.isEmpty then none
    else parseExpTail (p.1 * ((digitsVal ip : ℚ) + (digitsVal fp : ℚ) / (10 : ℚ) ^ fp.length)) r3
  | _ =>
    if ip.isEmpty then none
    else parseExpTail (p.1 * (digitsVal ip : ℚ)) r1

/-- Model of `String.prototype.trim`: strip leading and trailing whitespace. -/
def jsTrim (s : String) : String :=
  String.mk (((s.toList.dropWhile Char.isWhitespace).reverse.dropWhile Char.isWhitespace).reverse)

/-- `s.replace(",", ".")` in JS replaces only the first occurrence. -/
def replaceFirstComma : List Char → List Char
  | [] => []
  | c :: cs => if c == ',' then '.' :: cs else c :: replaceFirstComma cs

/-- String-level wrapper for the single-comma replacement. -/
def commaToDot (s : String) : String :=
  String.mk (replaceFirstComma s.toList)

/-- `toNumberLoose` from `server.js`: `null`/`undefined` (modelled as `none`),
then trim, empty → `null`, else `Number` of the comma-dotted string, with
non-finite results mapped to `null`. -/
def toNumberLoose (v : Option String) : Option ℚ :=
  match v with
  | none => none
  | some str =>
    let s := jsTrim str
    if s == "" then none else jsNumber (commaToDot s)

/-! ### String normalization and fuzzy column matching -/

/-- Characters stripped by the `normKey` regex `[\s\-_()/[\].:%]`. -/
def normStrip (c : Char) : Bool :=
  c.isWhitespace || c == '-' || c == '_' || c == '(' || c == ')' || c == '/' ||
    c == '[' || c == ']' || c == '.' || c == ':' || c == '%'

/-- `normKey` from `server.js`: lowercase, then strip whitespace and
punctuation.  `Char.toLower` models `toLowerCase` on the ASCII range. -/
def normKey (s : String) : String :=
  String.mk ((s.toList.map Char.toLower).filter (fun c => !normStrip c))

/-- Model of `String.prototype.startsWith` on character lists. -/
def listPre : List Char → List Char → Bool
  | [], _ => true
  | _ :: _, [] => false
  | a :: as, b :: bs => a == b && listPre as bs

/-- Model of `String.prototype.includes` on character lists. -/
def listInf (p l : List Char) : Bool :=
  match l with
  | [] => p.isEmpty
  | _ :: bs => listPre p l || listInf p bs

/-- `s.includes(pat)`. -/
def jsIncludes (s pat : String) : Bool :=
  listInf pat.toList s.toList

/-- `s.startsWith(pat)`. -/
def jsStarts (s pat : String) : Bool :=
  listPre pat.toList s.toList

/-- The per-pair score inside `pickColumn`: 100 exact, 60 containment,
50 one-way-only pre-segment match, 0 otherwise. -/
def scoreCand (fk ck : String) : ℕ :=
  if fk == ck then 100
  else if jsIncludes fk ck || jsIncludes ck fk then 60
  else if jsStarts fk ck || jsStarts ck fk then 50
  else 0

/-- `best?.score || 0` from the source. -/
def bestScoreOf (b : Option (String × ℕ)) : ℕ :=
  match b with
  | none => 0
  | some q => q.2

/-- Inner candidate loop of `pickColumn` for one field `f`. -/
def pickInner (cands : List String) (f : String) (b0 : Option (String × ℕ)) :
    Option (String × ℕ) :=
  cands.foldl (fun b c =>
    let ck := normKey c
    if ck == "" then b
    else
      let score := scoreCand (normKey f) ck
      if bestScoreOf b < score then some (f, score) else b) b0

/-- `pickColumn` from `server.js`: best-scoring field over all
(field, candidate) pairs, strict improvement only, accepted iff score ≥ 40. -/
def pickColumn (fields cands : List String) : Option (String × ℕ) :=
  match fields.foldl (fun b f => pickInner cands f b) none with
  | none => none
  | some q => if 40 ≤ q.2 then some q else none

/-! ### Aggregation and pressure interpretation -/

/-- One step of the `minMax` loop: skip null / non-finite entries, else
update min, max and count (`Infinity` / `-Infinity` initialisation is
modelled by the `none` start state). -/
def mmStep (acc : Option MinMaxStats) (v : Option ℚ) : Option MinMaxStats :=
  match v with
  | none => acc
  | some x =>
    match acc with
    | none => some ⟨x, x, 1⟩
    | some s => some ⟨if x < s.min then x else s.min, if s.max < x then x else s.max, s.count + 1⟩

/-- `minMax` from `server.js`: `{min, max, count}` over the finite entries,
`null` when there are none. -/
def minMax (arr : List (Option ℚ)) : Option MinMaxStats :=
  arr.foldl mmStep none

/-- Result shape of `detectPressureUnit`: `{ unit, kind }`. -/
structure UnitGuess where
  unit : Option PUnitKind
  kind : Option String
deriving DecidableEq, Repr

/-- `detectPressureUnit` from `server.js`: a value-range heuristic over the
series' min/max, tried in the order bar, kPa, psi. -/
def detectPressureUnit (series : List (Option ℚ)) : UnitGuess :=
  match minMax series with
  | none => ⟨none, none⟩
  | some s =>
    if s.max ≤ 5 ∧ 0 ≤ s.min then ⟨some .bar, some "pressure"⟩
    else if 50 < s.max ∧ s.max ≤ 400 then ⟨some .kPa, some "pressure"⟩
    else if 5 < s.max ∧ s.max ≤ 120 then ⟨some .psi, some "pressure"⟩
    else ⟨none, some "pressure"⟩

/-- kPa → psi factor `0.1450377` from `server.js`. -/
def kpaToPsi : ℚ := 1450377 / 10000000

/-- bar → psi factor `14.50377` from `server.js`. -/
def barToPsi : ℚ := 1450377 / 100000

/-- Atmospheric offset `14.7` psi from `server.js`. -/
def atmPsi : ℚ := 147 / 10

/-- `pressureToPsi` from `server.js`: non-finite (here `none`) input and
unknown unit both give `null`. -/
def pressureToPsi (v : Option ℚ) (unit : Option PUnitKind) : Option ℚ :=
  match v with
  | none => none
  | some x =>
    match unit with
    | some .psi => some x
    | some .kPa => some (x * kpaToPsi)
    | some .bar => some (x * barToPsi)
    | none => none

/-- `likelyAbsolutePressurePsi` from `server.js`. -/
def likelyAbsolutePressurePsi (psiStats : Option MinMaxStats) : Bool :=
  match psiStats with
  | none => false
  | some s => decide (10 < s.min ∧ s.min < 18)

/-- Per-channel half of the WOT test: scale-aware threshold from the
`wotMask` construction in `server.js`. -/
def wotChannelHigh (v : Option ℚ) : Bool :=
  match v with
  | none => false
  | some x => if x ≤ 12 / 10 then decide ((9 : ℚ) / 10 ≤ x) else decide ((90 : ℚ) ≤ x)

/-- One entry of `wotMask`: pedal OR throttle high. -/
def wotFlag (p t : Option ℚ) : Bool :=
  wotChannelHigh p || wotChannelHigh t

/-! ### Delimiter detection and header location -/

/-- Model of `String.prototype.split` with a single-character separator. -/
def splitChar (d : Char) : List Char → List (List Char)
  | [] => [[]]
  | c :: cs =>
    if c == d then [] :: splitChar d cs
    else
      match splitChar d cs with
      | [] => [[c]]
      | t :: ts => (c :: t) :: ts

/-- `line.split(delim)` for the single-character delimiters of `server.js`. -/
def jsSplit (s : String) (d : Char) : List String :=
  (splitChar d s.toList).map String.mk

/-- Occurrence count used by `detectDelimiter` (the `match(new RegExp(...))`
call counts non-overlapping single-character matches). -/
def countChar (s : String) (c : Char) : ℕ :=
  s.toList.count c

/-- `detectDelimiter` from `server.js`: among `,` `;` tab `|` pick the one
with the highest occurrence count (stable sort ⇒ earliest candidate wins
ties); fall back to `,` when every count is zero. -/
def detectDelimiter (line : String) : Char :=
  let best := [',', ';', '\t', '|'].foldl
    (fun (b : Char × ℕ) c => if b.2 < countChar line c then (c, countChar line c) else b)
    (',', 0)
  if 0 < best.2 then best.1 else ','

/-- The `x = p.replace(/["']/g, "").trim()` token cleanup in `looksLikeHeader`. -/
def stripQuotesTrim (p : String) : String :=
  jsTrim (String.mk (p.toList.filter (fun c => !(c == '"' || c == '\''))))

/-- Count of tokens whose cleaned text is non-empty and fails numeric
coercion (`Number.isFinite` is false), as in `looksLikeHeader`. -/
def nonNumericCount (parts : List String) : ℕ :=
  parts.foldl (fun acc p =>
    let x := stripQuotesTrim p
    if x == "" then acc
    else
      match jsNumber (commaToDot x) with
      | some _ => acc
      | none => acc + 1) 0

/-- `looksLikeHeader` from `server.js`. -/
def looksLikeHeader (line : String) (delim : Char) : Bool :=
  let parts := (jsSplit line delim).map jsTrim
  if parts.length < 3 then false
  else decide (max 2 (parts.length * 4 / 10) ≤ nonNumericCount parts)

/-- `score > bestScore` with the source's `bestScore = -1` start value. -/
def hdrBetter (b : Option (ℕ × ℕ)) (score : ℕ) : Bool :=
  match b with
  | none => true
  | some q => decide (q.2 < score)

/-- Loop body of `findHeaderLineIndex`: skip blank lines, keep a
qualifying line only when its token count strictly beats the best so far. -/
def hdrStep (b : Option (ℕ × ℕ)) (p : ℕ × String) : Option (ℕ × ℕ) :=
  let line := jsTrim p.2
  if line == "" then b
  else
    let delim := detectDelimiter line
    let score := (jsSplit line delim).length
    if looksLikeHeader line delim && hdrBetter b score then some (p.1, score) else b

/-- `findHeaderLineIndex` from `server.js`: scan the first
`Math.min(lines.length, 50)` lines, skip blank ones, keep the qualifying
line with the strictly largest token count. `none` models the `-1` result. -/
def findHeaderLineIndex (lines : List String) : Option ℕ :=
  (((lines.take 50).enum).foldl hdrStep none).map Prod.fst

/-! ### Boost gauge pipeline (step 5 of `/proxy/analyze`) -/

/-- `minMax` applied to an already null-filtered array. -/
def minMaxQ (l : List ℚ) : Option MinMaxStats :=
  minMax (l.map some)

/-- `boostRawArr.map(v => pressureToPsi(v, unit)).filter(v => v !== null)`. -/
def boostPsiList (raw : List (Option ℚ)) (u : Option PUnitKind) : List ℚ :=
  (raw.map (fun v => pressureToPsi v u)).filterMap id

/-- The full-series gauge array of step 5: subtract 14.7 uniformly when the
series was classified as likely absolute, else use converted psi directly. -/
def boostGaugeList (raw : List (Option ℚ)) (u : Option PUnitKind) (absLikely : Bool) :
    List ℚ :=
  if absLikely then
    ((raw.map (fun v => pressureToPsi v u)).map (fun v => v.map (fun x => x - atmPsi))).filterMap id
  else boostPsiList raw u

/-- The aligned gauge array rebuilt for the WOT mask in step 6 (reusing the
stored `boostMeta.unit` and `boostMeta.absoluteLikely`). -/
def wotGaugeAligned (raw : List (Option ℚ)) (u : Option PUnitKind) (absLikely : Bool) :
    List (Option ℚ) :=
  raw.map (fun v =>
    match pressureToPsi v u with
    | none => none
    | some psi => some (if absLikely then psi - atmPsi else psi))

/-- `filterByMask` from `server.js` (an out-of-range mask index is
`undefined`, hence falsy). -/
def filterByMask {α : Type} : List α → List Bool → List α
  | [], _ => []
  | _ :: _, [] => []
  | a :: as, b :: bs => if b then a :: filterByMask as bs else filterByMask as bs

/-- `unitGuess.unit` for the resolved boost column. -/
def boostUnitOf (raw : List (Option ℚ)) : Option PUnitKind :=
  (detectPressureUnit raw).unit

/-- The single absolute-vs-gauge decision of step 5. -/
def boostAbsLikely (raw : List (Option ℚ)) (u : Option PUnitKind) : Bool :=
  likelyAbsolutePressurePsi (minMaxQ (boostPsiList raw u))

/-- `stats.full.boostPsiGauge` for a resolved boost column. -/
def fullBoostGaugeStat (raw : List (Option ℚ)) : Option MinMaxStats :=
  minMaxQ (boostGaugeList raw (boostUnitOf raw) (boostAbsLikely raw (boostUnitOf raw)))

/-- `stats.wot.boostPsiGauge` for a resolved boost column. -/
def wotBoostGaugeStat (raw : List (Option ℚ)) (mask : List Bool) : Option MinMaxStats :=
  minMax (filterByMask
    (wotGaugeAligned raw (boostUnitOf raw) (boostAbsLikely raw (boostUnitOf raw))) mask)

/-! ### Full pipeline: `normalizeLogCsv` and steps 1–7 of `/proxy/analyze`

The CSV parser itself is the third-party `papaparse` library, whose code is
not part of this repository; it is modelled from the spec (§4.2): header
line as keys, split by the given delimiter, blank lines skipped, cells kept
as strings, and a structural-error flag for rows whose width differs from
the header width. -/

/-- One pass of `normalizeNewlines`: `\r\n` and stray `\r` become `\n`. -/
def normNl : List Char → List Char
  | [] => []
  | '\r' :: '\n' :: cs => '\n' :: normNl cs
  | '\r' :: cs => '\n' :: normNl cs
  | c :: cs => c :: normNl cs

/-- `normalizeNewlines` from `server.js`. -/
def normalizeNewlines (s : String) : String :=
  String.mk (normNl s.toList)

/-- `lines.slice(headerIdx).join("\n")`. -/
def joinNl : List String → String
  | [] => ""
  | [s] => s
  | s :: rest => s ++ "\n" ++ joinNl rest

/-- Modelled from the spec: result shape of a `Papa.parse` call with
`header: true` — row records, the field list, and whether structural
errors were reported. -/
structure PapaResult where
  data : List (List (String × String))
  fields : List String
  hasErrors : Bool
deriving DecidableEq, Repr

/-- Modelled from the spec: `Papa.parse(text, {header: true, delimiter,
skipEmptyLines: true, dynamicTyping: false})`.  Rows are keyed by the
header fields; a missing cell is an absent key (JS `undefined`); a row
whose width differs from the header's is a structural error. -/
def papaParse (text : String) (delim : Char) : PapaResult :=
  match (splitChar '\n' text.toList).map String.mk with
  | [] => ⟨[], [], false⟩
  | h :: rest =>
    let fields := jsSplit h delim
    let dataLines := rest.filter (fun l => !(l == ""))
    let rawRows := dataLines.map (fun l => jsSplit l delim)
    ⟨rawRows.map (fun r => fields.zip r), fields,
      rawRows.any (fun r => !(r.length == fields.length))⟩

/-- Modelled from the spec: the retry `Papa.parse` call without a forced
delimiter; the automatic inference is modelled by the same candidate count
used in `detectDelimiter`, applied to the first line. -/
def papaParseAuto (text : String) : PapaResult :=
  papaParse text (detectDelimiter (String.mk ((splitChar '\n' text.toList).headD [])))

/-- The two true failures of the normalization pipeline. -/
inductive ParseFailure where
  | headerNotFound
  | noUsableRows
deriving DecidableEq, Repr

/-- Result of `normalizeLogCsv`: rows, fields and the `info` record. -/
structure NormResult where
  rows : List (List (String × String))
  fields : List String
  headerIdx : ℕ
  delimiterAuto : Bool
  delimiter : Char
deriving DecidableEq, Repr

/-- `text.split("\n")` after newline normalization (steps at the top of
`normalizeLogCsv`). -/
def linesOf (rawText : String) : List String :=
  (splitChar '\n' (normalizeNewlines rawText).toList).map String.mk

/-- `normalizeLogCsv` from `server.js`. -/
def normalizeLogCsv (rawText : String) : Except ParseFailure NormResult :=
  let lines := linesOf rawText
  match findHeaderLineIndex lines with
  | none => .error .headerNotFound
  | some headerIdx =>
    let delimiter := detectDelimiter (lines.getD headerIdx "")
    let dataText := joinNl (lines.drop headerIdx)
    let parsed := papaParse dataText delimiter
    if parsed.hasErrors then
      let parsed2 := papaParseAuto dataText
      if parsed2.data.isEmpty then .error .noUsableRows
      else .ok ⟨parsed2.data, parsed2.fields, headerIdx, true, delimiter⟩
    else if parsed.data.isEmpty then .error .noUsableRows
    else .ok ⟨parsed.data, parsed.fields, headerIdx, false, delimiter⟩

/-! ### Channel synonym lists (step 2 of `/proxy/analyze`) -/

/-- Synonyms for the time channel. -/
def timeCands : List String := ["time", "timestamp", "t", "zeit", "sec", "s"]

/-- Synonyms for the RPM channel. -/
def rpmCands : List String := ["rpm", "engine rpm", "motordrehzahl", "n", "enginerpm"]

/-- Synonyms for the pedal channel. -/
def pedalCands : List String := ["pedal", "accelerator", "accel", "ap", "gaspedal", "pedalpos"]

/-- Synonyms for the throttle channel. -/
def throttleCands : List String := ["throttle", "throttlepos", "drossel", "tp", "throttle angle"]

/-- Synonyms for the boost channel. -/
def boostCands : List String :=
  ["boost", "map", "manifold", "charge", "ld", "saugrohr", "pressure", "boostpsi", "mapkpa"]

/-- Synonyms for the IAT channel. -/
def iatCands : List String := ["iat", "intake", "ansaugluft", "intake air", "charge air temp"]

/-- Synonyms for the lambda channel. -/
def lambdaCands : List String := ["lambda", "afr", "wideband", "o2", "equivalence"]

/-- Synonyms for the ignition channel. -/
def ignCands : List String := ["ign", "timing", "spark", "zw", "zünd", "ignition", "spark advance"]

/-! ### Steps 3–7 of `/proxy/analyze` -/

/-- `colX ? rows.map(r => toNumberLoose(r[colX.name])) : []` — an absent
key in a row record is JS `undefined`, i.e. `none`. -/
def colArr (rows : List (List (String × String))) (col : Option (String × ℕ)) :
    List (Option ℚ) :=
  match col with
  | none => []
  | some c => rows.map (fun r => toNumberLoose (r.lookup c.1))

/-- `arr[i]` on a JS array: out of range gives `undefined` (`none`). -/
def getOptQ (l : List (Option ℚ)) (i : ℕ) : Option ℚ :=
  (l.get? i).getD none

/-- `colX?.name || null` used in `stats.meta.detectedColumns`. -/
def nameOf (c : Option (String × ℕ)) : Option String :=
  match c with
  | none => none
  | some q => if q.1 == "" then none else some q.1

/-- `stats.meta.detectedColumns`. -/
structure DetectedColumns where
  time : Option String
  rpm : Option String
  pedal : Option String
  throttle : Option String
  boost : Option String
  iat : Option String
  lambda : Option String
  ignition : Option String
deriving DecidableEq, Repr

/-- `boostMeta` from step 5. -/
structure BoostMeta where
  detected : Option String
  absoluteLikely : Option Bool
  unit : Option PUnitKind
deriving DecidableEq, Repr

/-- The per-channel `StatSummary` block of `stats.full` / `stats.wot`. -/
structure ChannelStats where
  rpm : Option MinMaxStats
  iat : Option MinMaxStats
  lambda : Option MinMaxStats
  ignition : Option MinMaxStats
  boostPsiGauge : Option MinMaxStats
deriving DecidableEq, Repr

/-- `sampleRows` from `server.js`: evenly-strided downsample with stride
`Math.ceil(rows.length / max)`, keeping indices `0, step, 2·step, …`. -/
def sampleRows {α : Type} (rows : List α) (maxN : ℕ) : List α :=
  if rows.length ≤ maxN then rows
  else
    let step := (rows.length + maxN - 1) / maxN
    ((List.range rows.length).filter (fun i => i % step == 0)).filterMap (fun i => rows.get? i)

/-- One row of the downsampled payload: the `__wot` tag and the kept cells
(`undefined` cells stay absent). -/
structure CompactRow where
  wotTag : ℕ
  cells : List (String × Option String)
deriving DecidableEq, Repr

/-- The serializable stats payload built by steps 1–7 (`stats`,
`sample_all`, `sample_wot`) — everything `/proxy/analyze` computes from
the file before the outward model call. -/
structure AnalysisStats where
  metaRows : ℕ
  headerIdx : ℕ
  delimiterAuto : Bool
  delimiter : Char
  detectedColumns : DetectedColumns
  boostInterpretation : BoostMeta
  noteFromUser : Option String
  full : ChannelStats
  wot : ChannelStats
  sampleAll : List CompactRow
  sampleWot : List CompactRow
deriving DecidableEq, Repr

/-- Steps 1–7 of the `/proxy/analyze` handler in `server.js`: the complete
computation from the raw file text and user note to the stats payload. -/
def analyze (rawText note : String) : Except ParseFailure AnalysisStats :=
  match normalizeLogCsv rawText with
  | .error e => .error e
  | .ok norm =>
    let rows := norm.rows
    let fields := norm.fields
    let colTime := pickColumn fields timeCands
    let colRpm := pickColumn fields rpmCands
    let colPedal := pickColumn fields pedalCands
    let colThrottle := pickColumn fields throttleCands
    let colBoost := pickColumn fields boostCands
    let colIat := pickColumn fields iatCands
    let colLambda := pickColumn fields lambdaCands
    let colIgn := pickColumn fields ignCands
    let rpmArr := colArr rows colRpm
    let pedalArr := colArr rows colPedal
    let throttleArr := colArr rows colThrottle
    let boostRawArr := colArr rows colBoost
    let iatArr := colArr rows colIat
    let lambdaArr := colArr rows colLambda
    let ignArr := colArr rows colIgn
    let mask := (List.range rows.length).map
      (fun i => wotFlag (getOptQ pedalArr i) (getOptQ throttleArr i))
    let u := boostUnitOf boostRawArr
    let absL := boostAbsLikely boostRawArr u
    let boostMeta : BoostMeta :=
      match colBoost with
      | none => ⟨none, none, none⟩
      | some c => ⟨some c.1, some absL, u⟩
    let boostPsiGaugeArr : List ℚ :=
      match colBoost with
      | none => []
      | some _ => boostGaugeList boostRawArr u absL
    let wotGauge : List (Option ℚ) :=
      match colBoost with
      | none => []
      | some _ => wotGaugeAligned boostRawArr u absL
    let full : ChannelStats :=
      ⟨minMax rpmArr, minMax iatArr, minMax lambdaArr, minMax ignArr, minMaxQ boostPsiGaugeArr⟩
    let wotStats : ChannelStats :=
      ⟨minMax (filterByMask rpmArr mask), minMax (filterByMask iatArr mask),
        minMax (filterByMask lambdaArr mask), minMax (filterByMask ignArr mask),
        minMax (filterByMask wotGauge mask)⟩
    let keepCols := ([colTime, colRpm, colPedal, colThrottle, colBoost, colIat, colLambda,
      colIgn].filterMap (fun c => c.map Prod.fst)).filter (fun s => !(s == ""))
    let compact := rows.enum.map (fun p =>
      CompactRow.mk (if mask.getD p.1 false then 1 else 0)
        (keepCols.map (fun k => (k, p.2.lookup k))))
    .ok ⟨rows.length, norm.headerIdx, norm.delimiterAuto, norm.delimiter,
      ⟨nameOf colTime, nameOf colRpm, nameOf colPedal, nameOf colThrottle, nameOf colBoost,
        nameOf colIat, nameOf colLambda, nameOf colIgn⟩,
      boostMeta, (if note == "" then none else some note), full, wotStats,
      sampleRows compact 500, sampleRows (compact.filter (fun r => r.wotTag == 1)) 300⟩

/-! ### Definitions taken from the claims' wording (for refinement checks)

These definitions follow the claim text, not the source; each is compared
against the corresponding source-derived definition above. -/

/-- The unit-detection procedure exactly as claim C1 words it: first a
substring match of "kpa"/"bar"/"psi" in the normalized resolved column
name, and only if the name gives no signal, the value-range heuristic. -/
def claimNameThenRangeUnit (resolvedName : String) (series : List (Option ℚ)) :
    Option PUnitKind :=
  let nk := normKey resolvedName
  if jsIncludes nk "kpa" then some .kPa
  else if jsIncludes nk "bar" then some .bar
  else if jsIncludes nk "psi" then some .psi
  else
    match minMax series with
    | none => none
    | some s =>
      if s.max ≤ 5 ∧ 0 ≤ s.min then some .bar
      else if 50 < s.max ∧ s.max ≤ 400 then some .kPa
      else if 5 < s.max ∧ s.max ≤ 120 then some .psi
      else none

/-- Earliest entry with the strictly largest second component. -/
def pickBest : List (ℕ × ℕ) → Option (ℕ × ℕ)
  | [] => none
  | p :: rest =>
    match pickBest rest with
    | none => some p
    | some q => if p.2 < q.2 then some q else some p

/-- Whether a (trimmed) line qualifies as header-like, shared by the claim
reading and the source reading of the header search. -/
def hdrQualifies (line : String) : Bool :=
  !(jsTrim line == "") && looksLikeHeader (jsTrim line) (detectDelimiter (jsTrim line))

/-- Token count of a (trimmed) line under its own detected delimiter. -/
def hdrTokens (line : String) : ℕ :=
  (jsSplit (jsTrim line) (detectDelimiter (jsTrim line))).length

/-- The header search exactly as claim C4 words it: restrict to the first
50 NON-EMPTY lines, keep the qualifying ones, pick the one with the most
tokens, ties broken by the earliest line. -/
def claimFindHeaderNonEmpty (lines : List String) : Option ℕ :=
  let window := (lines.enum.filter (fun p => !(jsTrim p.2 == ""))).take 50
  (pickBest ((window.filter (fun p => hdrQualifies p.2)).map
    (fun p => (p.1, hdrTokens p.2)))).map Prod.fst

/-- The `StatSummary` record exactly as claim C7 words it, including the
`avg` field. -/
structure StatSummarySpec where
  min : ℚ
  max : ℚ
  avg : ℚ
  count : ℕ
deriving DecidableEq, Repr

/-- The aggregator exactly as claim C7 words it: filter invalid entries,
return min/max/avg/count over the valid ones, `null` when none remain. -/
def claimStatSummary (arr : List (Option ℚ)) : Option StatSummarySpec :=
  match arr.filterMap id with
  | [] => none
  | x :: xs =>
    some ⟨xs.foldl min x, xs.foldl max x, (x + xs.sum) / (xs.length + 1), xs.length + 1⟩

/-! ### Helper lemmas -/

/-- A leading segment of a list is in particular a contiguous segment. -/
theorem listPre_imp_listInf (p l : List Char) (h : listPre p l = true) :
    listInf p l = true := by
  cases l with
  | nil =>
    cases p with
    | nil => simp [listInf]
    | cons c cs => simp [listPre] at h
  | cons c cs => simp [listInf, h]

/-- The inner score of `pickColumn` is never 50: its 50-branch condition
implies the 60-branch condition, which is tested first. -/
theorem scoreCand_values (fk ck : String) :
    scoreCand fk ck = 0 ∨ scoreCand fk ck = 60 ∨ scoreCand fk ck = 100 := by
  unfold scoreCand
  split_ifs with h1 h2 h3
  · exact Or.inr (Or.inr rfl)
  · exact Or.inr (Or.inl rfl)
  · exfalso
    rcases Bool.or_eq_true_iff.1 h3 with h | h
    · exact h2 (Bool.or_eq_true_iff.2 (Or.inl (listPre_imp_listInf _ _ h)))
    · exact h2 (Bool.or_eq_true_iff.2 (Or.inr (listPre_imp_listInf _ _ h)))
  · exact Or.inl rfl

/-- `minMax` ignores `none` entries: it is a fold over the valid values. -/
theorem foldl_mmStep_filterMap (arr : List (Option ℚ)) :
    ∀ acc, arr.foldl mmStep acc = (arr.filterMap id).foldl (fun a x => mmStep a (some x)) acc := by
  induction arr with
  | nil => intro acc; rfl
  | cons v t ih => intro acc; cases v <;> simp [mmStep, ih]

/-- The source's running-minimum update is `min`. -/
theorem if_lt_eq_min (m x : ℚ) : (if x < m then x else m) = min m x := by
  by_cases h : x < m
  · simp [h, min_eq_right h.le]
  · simp [h, min_eq_left (le_of_not_lt h)]

/-- The source's running-maximum update is `max`. -/
theorem if_lt_eq_max (m x : ℚ) : (if m < x then x else m) = max m x := by
  by_cases h : m < x
  · simp [h, max_eq_right h.le]
  · simp [h, max_eq_left (le_of_not_lt h)]

/-- The `minMax` fold from a seeded accumulator, as folded `min`/`max`. -/
theorem mmFold_some (l : List ℚ) :
    ∀ (s : MinMaxStats), l.foldl (fun a x => mmStep a (some x)) (some s) =
      some ⟨l.foldl min s.min, l.foldl max s.max, s.count + l.length⟩ := by
  induction l with
  | nil => intro s; rfl
  | cons x t ih =>
    intro s
    have h1 : mmStep (some s) (some x) = some ⟨min s.min x, max s.max x, s.count + 1⟩ := by
      simp [mmStep, if_lt_eq_min, if_lt_eq_max]
    simp only [List.foldl_cons, h1, ih, List.length_cons, MinMaxStats.mk.injEq,
      Option.some.injEq]
    exact ⟨trivial, trivial, by omega⟩

/-- Closed form of `minMax` over the valid values of the series. -/
theorem minMax_eq (arr : List (Option ℚ)) :
    minMax arr = (match arr.filterMap id with
      | [] => none
      | x :: xs => some ⟨xs.foldl min x, xs.foldl max x, xs.length + 1⟩) := by
  unfold minMax
  rw [foldl_mmStep_filterMap]
  cases h : arr.filterMap id with
  | nil => rfl
  | cons x xs =>
    have h0 : mmStep none (some x) = some ⟨x, x, 1⟩ := rfl
    simp only [List.foldl_cons, h0, mmFold_some]
    exact congrArg some (by simp [Nat.add_comm])

/-- Mapping `some` then filtering it away is the identity. -/
theorem filterMap_id_map_some (l : List ℚ) : (l.map some).filterMap id = l := by
  induction l <;> simp_all

/-- `minMax` of a pre-filtered array agrees with `minMax` of the raw one. -/
theorem minMaxQ_filterMap (arr : List (Option ℚ)) :
    minMaxQ (arr.filterMap id) = minMax arr := by
  unfold minMaxQ
  rw [minMax_eq, minMax_eq, filterMap_id_map_some]

/-- Valid values of an `Option.map`ped series. -/
theorem filterMap_optionMap (f : ℚ → ℚ) (arr : List (Option ℚ)) :
    (arr.map (Option.map f)).filterMap id = (arr.filterMap id).map f := by
  induction arr with
  | nil => rfl
  | cons v t ih => cases v <;> simp_all

/-- A monotone map commutes with the folded minimum. -/
theorem foldl_min_map {f : ℚ → ℚ} (hf : Monotone f) (xs : List ℚ) :
    ∀ x, (xs.map f).foldl min (f x) = f (xs.foldl min x) := by
  induction xs with
  | nil => intro x; rfl
  | cons y t ih => intro x; simp only [List.map_cons, List.foldl_cons, ← hf.map_min, ih]

/-- A monotone map commutes with the folded maximum. -/
theorem foldl_max_map {f : ℚ → ℚ} (hf : Monotone f) (xs : List ℚ) :
    ∀ x, (xs.map f).foldl max (f x) = f (xs.foldl max x) := by
  induction xs with
  | nil => intro x; rfl
  | cons y t ih => intro x; simp only [List.map_cons, List.foldl_cons, ← hf.map_max, ih]

/-- `minMax` commutes with a monotone per-value map. -/
theorem minMax_map_mono {f : ℚ → ℚ} (hf : Monotone f) (arr : List (Option ℚ)) :
    minMax (arr.map (Option.map f)) =
      (minMax arr).map (fun s => ⟨f s.min, f s.max, s.count⟩) := by
  rw [minMax_eq, minMax_eq, filterMap_optionMap]
  cases h : arr.filterMap id with
  | nil => rfl
  | cons x xs => simp [foldl_min_map hf, foldl_max_map hf]

/-- A series with no valid values aggregates to `null`. -/
theorem minMax_all_none (l : List (Option ℚ)) (h : ∀ x ∈ l, x = none) : minMax l = none := by
  have h0 : l.filterMap id = [] := by
    rw [List.filterMap_eq_nil_iff]
    intro a ha
    simp [h a ha]
  rw [minMax_eq, h0]

/-- `filterByMask` only keeps elements of the array. -/
theorem mem_filterByMask {α : Type} :
    ∀ (l : List α) (m : List Bool) (a : α), a ∈ filterByMask l m → a ∈ l := by
  intro l
  induction l with
  | nil => intro m a h; simp [filterByMask] at h
  | cons x t ih =>
    intro m a h
    cases m with
    | nil => simp [filterByMask] at h
    | cons b bs =>
      cases b with
      | false =>
        simp only [filterByMask, Bool.false_eq_true, if_false] at h
        exact List.mem_cons_of_mem _ (ih bs a h)
      | true =>
        simp only [filterByMask, if_true] at h
        rcases List.mem_cons.1 h with rfl | h2
        · exact List.mem_cons_self _ _
        · exact List.mem_cons_of_mem _ (ih bs a h2)

/-- With an unknown unit, every conversion yields `null`. -/
theorem pressureToPsi_unit_none (v : Option ℚ) : pressureToPsi v none = none := by
  cases v <;> rfl

/-- The folded minimum is one of the values. -/
theorem foldl_min_mem (xs : List ℚ) : ∀ x, xs.foldl min x ∈ x :: xs := by
  induction xs with
  | nil => intro x; simp
  | cons y t ih =>
    intro x
    simp only [List.foldl_cons]
    rcases List.mem_cons.1 (ih (min x y)) with h1 | h1
    · rcases min_choice x y with h2 | h2 <;> rw [h1, h2] <;> simp
    · simp [List.mem_cons_of_mem, h1]

/-- The folded minimum bounds every value from below. -/
theorem foldl_min_le (xs : List ℚ) : ∀ x y, y ∈ x :: xs → xs.foldl min x ≤ y := by
  induction xs with
  | nil =>
    intro x y hy
    simp at hy
    simp [hy]
  | cons z t ih =>
    intro x y hy
    simp only [List.foldl_cons]
    have hhead : t.foldl min (min x z) ≤ min x z :=
      ih (min x z) (min x z) (List.mem_cons_self _ _)
    rcases List.mem_cons.1 hy with h1 | h2
    · subst h1
      exact le_trans hhead (min_le_left _ _)
    · rcases List.mem_cons.1 h2 with h3 | h4
      · subst h3
        exact le_trans hhead (min_le_right _ _)
      · exact ih (min x z) y (List.mem_cons_of_mem _ h4)

/-- The folded maximum is one of the values. -/
theorem foldl_max_mem (xs : List ℚ) : ∀ x, xs.foldl max x ∈ x :: xs := by
  induction xs with
  | nil => intro x; simp
  | cons y t ih =>
    intro x
    simp only [List.foldl_cons]
    rcases List.mem_cons.1 (ih (max x y)) with h1 | h1
    · rcases max_choice x y with h2 | h2 <;> rw [h1, h2] <;> simp
    · simp [List.mem_cons_of_mem, h1]

/-- The folded maximum bounds every value from above. -/
theorem le_foldl_max (xs : List ℚ) : ∀ x y, y ∈ x :: xs → y ≤ xs.foldl max x := by
  induction xs with
  | nil =>
    intro x y hy
    simp at hy
    simp [hy]
  | cons z t ih =>
    intro x y hy
    simp only [List.foldl_cons]
    have hhead : max x z ≤ t.foldl max (max x z) :=
      ih (max x z) (max x z) (List.mem_cons_self _ _)
    rcases List.mem_cons.1 hy with h1 | h2
    · subst h1
      exact le_trans (le_max_left _ _) hhead
    · rcases List.mem_cons.1 h2 with h3 | h4
      · subst h3
        exact le_trans (le_max_right _ _) hhead
      · exact ih (max x z) y (List.mem_cons_of_mem _ h4)

/-- The header-scan step, restated through `hdrQualifies`/`hdrTokens`. -/
theorem hdrStep_eq (b : Option (ℕ × ℕ)) (p : ℕ × String) :
    hdrStep b p =
      (if hdrQualifies p.2 && hdrBetter b (hdrTokens p.2) then some (p.1, hdrTokens p.2)
       else b) := by
  unfold hdrStep hdrQualifies hdrTokens
  by_cases h : jsTrim p.2 == "" <;> simp [h]

/-- Full characterization of the header-scan fold over an index-increasing
list of (index, line) pairs: `none` iff no line qualifies, and a result is
a qualifying line whose token count is maximal, with ties broken by the
earliest index. -/
theorem hdrFold_spec :
    ∀ (ps : List (ℕ × String)), ps.Pairwise (fun a b => a.1 < b.1) →
      (ps.foldl hdrStep none = none ↔ ∀ p ∈ ps, hdrQualifies p.2 = false)
      ∧ (∀ i sc, ps.foldl hdrStep none = some (i, sc) →
          (∃ p ∈ ps, p.1 = i ∧ hdrQualifies p.2 = true ∧ sc = hdrTokens p.2)
          ∧ ∀ q ∈ ps, hdrQualifies q.2 = true →
              hdrTokens q.2 ≤ sc ∧ (sc ≤ hdrTokens q.2 → i ≤ q.1)) := by
  intro ps
  induction ps using List.reverseRecOn with
  | nil =>
    intro _
    constructor
    · simp
    · intro i sc h
      simp at h
  | append_singleton ps p ih =>
    intro hpw
    rw [List.pairwise_append] at hpw
    obtain ⟨hpw1, _, hcross⟩ := hpw
    have IH1 := (ih hpw1).1
    have IH2 := (ih hpw1).2
    rw [List.foldl_append]
    simp only [List.foldl_cons, List.foldl_nil]
    rw [hdrStep_eq]
    by_cases hq : hdrQualifies p.2 = true
    · by_cases hb : hdrBetter (ps.foldl hdrStep none) (hdrTokens p.2) = true
      · simp only [hq, hb, Bool.and_self, if_true]
        constructor
        · exact iff_of_false (by simp) (fun hall => by simpa [hq] using hall p (by simp))
        · intro i sc hsome
          have h1 : p.1 = i ∧ hdrTokens p.2 = sc := by simpa [Prod.ext_iff] using hsome
          constructor
          · exact ⟨p, by simp, h1.1, hq, h1.2.symm⟩
          · intro q hq2 hq3
            rcases List.mem_append.1 hq2 with hmem | hmem
            · cases hRcase : ps.foldl hdrStep none with
              | none => exact absurd hq3 (by simp [IH1.1 hRcase q hmem])
              | some q0 =>
                obtain ⟨i0, sc0⟩ := q0
                have hmax := IH2 i0 sc0 hRcase
                have h5 := (hmax.2 q hmem hq3).1
                have hlt : sc0 < hdrTokens p.2 := by
                  rw [hRcase] at hb
                  simpa [hdrBetter] using hb
                have h12 := h1.2
                exact ⟨by omega, fun hle => absurd hle (by omega)⟩
            · have hmem2 : q = p := by simpa using hmem
              subst hmem2
              have h12 := h1.2
              have h11 := h1.1
              exact ⟨by omega, fun _ => by omega⟩
      · cases hRcase : ps.foldl hdrStep none with
        | none =>
          rw [hRcase] at hb
          simp [hdrBetter] at hb
        | some q0 =>
          obtain ⟨i0, sc0⟩ := q0
          have hnotlt : ¬ sc0 < hdrTokens p.2 := by
            rw [hRcase] at hb
            simpa [hdrBetter] using hb
          simp only [hq, Bool.true_and]
          have hbf : hdrBetter (some (i0, sc0)) (hdrTokens p.2) = false := by
            simpa [hdrBetter] using hnotlt
          simp only [hbf, Bool.false_eq_true, if_false]
          constructor
          · exact iff_of_false (by simp) (fun hall => by simpa [hq] using hall p (by simp))
          · intro i sc hsome
            have h1 : i0 = i ∧ sc0 = sc := by simpa [Prod.ext_iff] using hsome
            obtain ⟨h1a, h1b⟩ := h1
            subst h1a
            subst h1b
            have hmax := IH2 i0 sc0 hRcase
            constructor
            · obtain ⟨w, hw1, hw2⟩ := hmax.1
              exact ⟨w, List.mem_append_left _ hw1, hw2⟩
            · intro q hq2 hq3
              rcases List.mem_append.1 hq2 with hmem | hmem
              · exact hmax.2 q hmem hq3
              · have hmem2 : q = p := by simpa using hmem
                have hq1 : q.1 = p.1 := by rw [hmem2]
                have hq2t : hdrTokens q.2 = hdrTokens p.2 := by rw [hmem2]
                refine ⟨by omega, fun _ => ?_⟩
                obtain ⟨w, hw1, hw2, _⟩ := hmax.1
                have hwp := hcross w hw1 p (by simp)
                omega
    · have hqf : hdrQualifies p.2 = false := by
        simpa using hq
      simp only [hqf, Bool.false_and, Bool.false_eq_true, if_false]
      constructor
      · rw [IH1]
        constructor
        · intro hall q hmem
          rcases List.mem_append.1 hmem with hmem2 | hmem2
          · exact hall q hmem2
          · have : q = p := by simpa using hmem2
            subst this
            exact hqf
        · intro hall q hmem
          exact hall q (List.mem_append_left _ hmem)
      · intro i sc hsome
        have hmax := IH2 i sc hsome
        constructor
        · obtain ⟨w, hw1, hw2⟩ := hmax.1
          exact ⟨w, List.mem_append_left _ hw1, hw2⟩
        · intro q hq2 hq3
          rcases List.mem_append.1 hq2 with hmem | hmem
          · exact hmax.2 q hmem hq3
          · have : q = p := by simpa using hmem
            subst this
            exact absurd hq3 (by simp [hqf])

/-- The enumeration of any list has strictly increasing indices. -/
theorem enum_pairwise_lt {α : Type} (l : List α) :
    (l.enum).Pairwise (fun a b => a.1 < b.1) := by
  rw [List.pairwise_iff_getElem]
  intro i j hi hj hij
  simp only [List.getElem_enum]
  simpa using hij

/-- Membership in the enumerated 50-line scan window, in terms of the
original line list. -/
theorem mem_enum_take_iff (lines : List String) (q : ℕ × String) :
    q ∈ (lines.take 50).enum ↔ q.1 < 50 ∧ lines[q.1]? = some q.2 := by
  rw [List.mem_enum_iff_getElem?]
  constructor
  · intro h
    have hlt : q.1 < (lines.take 50).length := by
      by_contra hge
      rw [List.getElem?_eq_none (le_of_not_lt hge)] at h
      exact Option.noConfusion h
    have h50 : q.1 < 50 := lt_of_lt_of_le hlt (by simp)
    rw [List.getElem?_take_of_lt h50] at h
    exact ⟨h50, h⟩
  · intro ⟨h50, h⟩
    rw [List.getElem?_take_of_lt h50]
    exact h

example : jsSplit "a,b,,c" ',' = ["a", "b", "", "c"] := by decide
example : detectDelimiter "a;b;c" = ';' := by decide
example : detectDelimiter "abc" = ',' := by decide
example : looksLikeHeader "Time,RPM,Boost(kPa)" ',' = true := by decide
example : looksLikeHeader "0,800,101.3" ',' = false := by decide
example : findHeaderLineIndex ["meta", "", "Time,RPM,Boost", "0,1,2"] = some 2 := by decide
example : findHeaderLineIndex ["0,1,2", "3,4,5"] = none := by decide
example : fullBoostGaugeStat [some (1013 / 10), some 200] =
    some ⟨-(768099 / 100000000), 715377 / 50000, 2⟩ := by decide
example : toNumberLoose (some "12,5") = some (25 / 2) := by decide
example : toNumberLoose (some "  ") = none := by decide
example : toNumberLoose (some "1e3") = some 1000 := by decide
example : toNumberLoose (some "-2.5E-1") = some (-1 / 4) := by decide
example : toNumberLoose (some "abc") = none := by decide
example : pickColumn ["Time", "RPM"] ["rpm"] = some ("RPM", 100) := by decide
example : pickColumn ["boostpsi"] ["boost"] = some ("boostpsi", 60) := by decide
example : (detectPressureUnit [some 60, some 70]).unit = some .kPa := by decide
example : minMax [some 3, none, some 1] = some ⟨1, 3, 2⟩ := by decide
example : wotFlag (some (95 : ℚ)) none = true := by decide
example : wotFlag (some (95 / 100 : ℚ)) none = true := by decide
example : wotFlag none none = false := by decide

/-- The inner candidate loop of `pickColumn` only ever installs scores 60
or 100, because its 50-branch is unreachable. -/
theorem pickInner_preserve (cands : List String) (f : String) :
    ∀ (b : Option (String × ℕ)),
      (∀ q, b = some q → q.2 = 60 ∨ q.2 = 100) →
      ∀ q, pickInner cands f b = some q → q.2 = 60 ∨ q.2 = 100 := by
  unfold pickInner
  induction cands with
  | nil => intro b hb; exact hb
  | cons c t ih =>
    intro b hb
    simp only [List.foldl_cons]
    apply ih
    dsimp only
    split_ifs with h1 h2
    · exact hb
    · intro q hq
      cases hq
      rcases scoreCand_values (normKey f) (normKey c) with h0 | h60 | h100
      · rw [h0] at h2
        exact absurd h2 (by omega)
      · exact Or.inl h60
      · exact Or.inr h100
    · exact hb

/-- The field loop of `pickColumn` preserves the 60-or-100 property. -/
theorem pickFold_preserve (cands : List String) :
    ∀ (fields : List String) (b : Option (String × ℕ)),
      (∀ q, b = some q → q.2 = 60 ∨ q.2 = 100) →
      ∀ q, fields.foldl (fun b f => pickInner cands f b) b = some q →
        q.2 = 60 ∨ q.2 = 100 := by
  intro fields
  induction fields with
  | nil => intro b hb; exact hb
  | cons f t ih =>
    intro b hb
    simp only [List.foldl_cons]
    exact ih _ (pickInner_preserve cands f b hb)

/-! ### Claim theorems -/

/-- C5: numeric coercion of a raw cell never throws (it is a total
function): `null`/`undefined`/empty/whitespace-only input yields `null`;
otherwise the first decimal comma is replaced with a dot and the string is
parsed as a floating-point number, with non-finite or unparseable results
yielding `null`; in particular `"12,5"` coerces to `12.5`, not `125` and
not `null`. -/
theorem toNumberLoose_spec :
    toNumberLoose none = none
    ∧ (∀ s, jsTrim s = "" → toNumberLoose (some s) = none)
    ∧ (∀ s, jsTrim s ≠ "" → toNumberLoose (some s) = jsNumber (commaToDot (jsTrim s)))
    ∧ toNumberLoose (some "12,5") = some (25 / 2)
    ∧ ¬ toNumberLoose (some "12,5") = some 125
    ∧ toNumberLoose (some "Infinity") = none
    ∧ toNumberLoose (some "foo") = none := by
  refine ⟨rfl, ?_, ?_, by decide, by decide, by decide, by decide⟩
  · intro s h
    simp [toNumberLoose, h]
  · intro s h
    simp only [toNumberLoose]
    rw [if_neg]
    simp [h]

/-- Witness for C5 at the concrete inputs `"  "` and `"1,5"`. -/
theorem toNumberLoose_spec_witness :
    toNumberLoose (some "  ") = none
    ∧ toNumberLoose (some "1,5") = jsNumber (commaToDot (jsTrim "1,5")) :=
  ⟨toNumberLoose_spec.2.1 "  " (by decide), toNumberLoose_spec.2.2.1 "1,5" (by decide)⟩

/-- One channel of the WOT test, characterized: high-load iff the value is
present and meets the scale-aware threshold. -/
theorem wotChannelHigh_iff (v : Option ℚ) :
    wotChannelHigh v = true ↔
      ∃ x, v = some x ∧ ((x ≤ 12 / 10 ∧ 9 / 10 ≤ x) ∨ (12 / 10 < x ∧ 90 ≤ x)) := by
  cases v with
  | none => simp [wotChannelHigh]
  | some x =>
    simp only [wotChannelHigh, Option.some.injEq]
    split_ifs with h
    · constructor
      · intro hx
        exact ⟨x, rfl, Or.inl ⟨h, of_decide_eq_true hx⟩⟩
      · rintro ⟨y, hxy, hy⟩
        cases hxy
        rcases hy with ⟨_, h9⟩ | ⟨h12, _⟩
        · exact decide_eq_true h9
        · exact absurd h12 (not_lt.2 h)
    · constructor
      · intro hx
        exact ⟨x, rfl, Or.inr ⟨lt_of_not_le h, of_decide_eq_true hx⟩⟩
      · rintro ⟨y, hxy, hy⟩
        cases hxy
        rcases hy with ⟨hle, _⟩ | ⟨_, h90⟩
        · exact absurd hle h
        · exact decide_eq_true h90

/-- C6: a row's high-load flag is the logical OR of independent pedal and
throttle classifications, each scale-aware (value ≤ 1.2 read as a 0–1
fraction with threshold 0.9, otherwise as a 0–100 percentage with
threshold 90); a row with neither channel resolvable is never high-load. -/
theorem wot_flag_scale_aware (p t : Option ℚ) :
    (wotFlag p t = true ↔
      ((∃ x, p = some x ∧ ((x ≤ 12 / 10 ∧ 9 / 10 ≤ x) ∨ (12 / 10 < x ∧ 90 ≤ x))) ∨
       (∃ x, t = some x ∧ ((x ≤ 12 / 10 ∧ 9 / 10 ≤ x) ∨ (12 / 10 < x ∧ 90 ≤ x)))))
    ∧ wotFlag none none = false := by
  constructor
  · rw [wotFlag, Bool.or_eq_true, wotChannelHigh_iff, wotChannelHigh_iff]
  · rfl

/-- C8: the computation from raw file text (and note) to the stats payload
is a deterministic function of its input — byte-identical inputs produce
identical `AnalysisStats`. -/
theorem analyze_deterministic (raw1 raw2 note1 note2 : String)
    (hraw : raw1 = raw2) (hnote : note1 = note2) :
    analyze raw1 note1 = analyze raw2 note2 := by
  subst hraw
  subst hnote
  rfl

/-- Witness for C8 at a concrete log file. -/
theorem analyze_deterministic_witness :
    analyze "Time,RPM,Pedal\n0,800,10" "" = analyze "Time,RPM,Pedal\n0,800,10" "" :=
  analyze_deterministic _ _ _ _ rfl rfl

/-- C9: any non-null result of column resolution has score exactly 100 or
60; the 50-scoring rule is unreachable because a one-way leading-segment
match always also satisfies the containment rule, which is checked first
and scores higher. -/
theorem pick_score_values :
    (∀ (fields cands : List String) (r : String × ℕ),
        pickColumn fields cands = some r → r.2 = 100 ∨ r.2 = 60)
    ∧ (∀ fk ck : String, (jsStarts fk ck || jsStarts ck fk) = true →
        (jsIncludes fk ck || jsIncludes ck fk) = true) := by
  constructor
  · intro fields cands r h
    unfold pickColumn at h
    revert h
    cases hbest : fields.foldl (fun b f => pickInner cands f b) none with
    | none =>
      intro h
      exact Option.noConfusion h
    | some q =>
      intro h
      dsimp only at h
      split_ifs at h with h40
      · cases h
        rcases pickFold_preserve cands fields none (fun p hp => Option.noConfusion hp) r hbest
          with h60 | h100
        · exact Or.inr h60
        · exact Or.inl h100
  · intro fk ck h
    rcases Bool.or_eq_true_iff.1 h with h1 | h1
    · exact Bool.or_eq_true_iff.2 (Or.inl (listPre_imp_listInf _ _ h1))
    · exact Bool.or_eq_true_iff.2 (Or.inr (listPre_imp_listInf _ _ h1))

/-- Witness for C9 at a concrete field/synonym pair. -/
theorem pick_score_values_witness :
    (("RPM", 100) : String × ℕ).2 = 100 ∨ (("RPM", 100) : String × ℕ).2 = 60 :=
  pick_score_values.1 ["Time", "RPM"] ["rpm"] ("RPM", 100) (by decide)

/-- C10: for a boost series whose valid maximum lies in the overlapping
band (50, 120], unit detection returns kPa, never psi, because the kPa
range check precedes the psi one; psi is reachable exactly for maxima in
(5, 50]. -/
theorem detect_unit_overlap (series : List (Option ℚ)) (s : MinMaxStats)
    (h : minMax series = some s) :
    (50 < s.max → s.max ≤ 120 → (detectPressureUnit series).unit = some PUnitKind.kPa)
    ∧ ((detectPressureUnit series).unit = some PUnitKind.psi ↔ (5 < s.max ∧ s.max ≤ 50)) := by
  simp only [detectPressureUnit, h]
  split_ifs with h1 h2 h3
  · refine ⟨fun h50 _ => absurd h1.1 (by linarith), ?_⟩
    refine iff_of_false (by simp) ?_
    rintro ⟨h5, _⟩
    linarith [h1.1]
  · refine ⟨fun _ _ => rfl, ?_⟩
    refine iff_of_false (by simp) ?_
    rintro ⟨_, h50⟩
    linarith [h2.1]
  · refine ⟨fun h50 h120 => absurd ⟨h50, by linarith⟩ h2, ?_⟩
    refine iff_of_true rfl ⟨h3.1, ?_⟩
    by_contra hgt
    exact h2 ⟨by linarith [h3.1], by linarith [h3.2]⟩
  · refine ⟨fun h50 h120 => absurd ⟨h50, by linarith⟩ h2, ?_⟩
    refine iff_of_false (by simp) ?_
    rintro ⟨h5, h50⟩
    exact h3 ⟨h5, by linarith⟩

/-- Witness for C10 at a series with maximum 60. -/
theorem detect_unit_overlap_witness :
    (detectPressureUnit [some (60 : ℚ)]).unit = some PUnitKind.kPa :=
  (detect_unit_overlap [some 60] ⟨60, 60, 1⟩ (by decide)).1 (by norm_num) (by norm_num)

/-- C3: conversion to psi leaves psi values unchanged, multiplies kPa by
0.1450377 and bar by 14.50377, and with an unknown unit maps every value
to `null`, so both the full and the high-load boost gauge statistics are
`null` rather than fabricated numbers. -/
theorem pressure_psi_conversion :
    (∀ v : ℚ, pressureToPsi (some v) (some PUnitKind.psi) = some v
      ∧ pressureToPsi (some v) (some PUnitKind.kPa) = some (v * (1450377 / 10000000))
      ∧ pressureToPsi (some v) (some PUnitKind.bar) = some (v * (1450377 / 100000))
      ∧ pressureToPsi (some v) none = none)
    ∧ (∀ u, pressureToPsi none u = none)
    ∧ (∀ raw, boostUnitOf raw = none →
        ∀ mask, fullBoostGaugeStat raw = none ∧ wotBoostGaugeStat raw mask = none) := by
  refine ⟨fun v => ⟨rfl, rfl, rfl, rfl⟩, fun u => rfl, ?_⟩
  intro raw hu mask
  have h1 : boostPsiList raw none = [] := by
    unfold boostPsiList
    rw [List.filterMap_eq_nil_iff]
    intro a ha
    rcases List.mem_map.1 ha with ⟨v, _, rfl⟩
    simp [pressureToPsi_unit_none]
  have h2 : ∀ b, boostGaugeList raw none b = [] := by
    intro b
    cases b with
    | false =>
      unfold boostGaugeList
      simpa using h1
    | true =>
      unfold boostGaugeList
      simp only [if_true]
      rw [List.filterMap_eq_nil_iff]
      intro a ha
      rcases List.mem_map.1 ha with ⟨w, hw, rfl⟩
      rcases List.mem_map.1 hw with ⟨v, _, rfl⟩
      simp [pressureToPsi_unit_none]
  constructor
  · unfold fullBoostGaugeStat
    rw [hu, h2]
    rfl
  · unfold wotBoostGaugeStat
    rw [hu]
    apply minMax_all_none
    intro x hx
    have hx2 := mem_filterByMask _ _ _ hx
    rcases List.mem_map.1 hx2 with ⟨v, _, rfl⟩
    simp [wotGaugeAligned, pressureToPsi_unit_none]

/-- Witness for C3 at a series whose range matches no unit. -/
theorem pressure_psi_conversion_witness :
    fullBoostGaugeStat [some (1000 : ℚ)] = none
    ∧ wotBoostGaugeStat [some (1000 : ℚ)] [true] = none :=
  pressure_psi_conversion.2.2 [some 1000] (by decide) [true]

set_option maxRecDepth 100000 in
/-- C1 counterexample: the code's unit detection ignores the resolved
column name entirely. On the column "boostpsi" with values 60 and 70, the
pipeline reports kPa, while the name-then-range procedure the claim
describes reports psi. -/
theorem detect_unit_ignores_name_cex :
    (detectPressureUnit [some 60, some 70]).unit = some PUnitKind.kPa
    ∧ claimNameThenRangeUnit "boostpsi" [some 60, some 70] = some PUnitKind.psi
    ∧ (analyze "time,rpm,boostpsi\n1,800,60\n2,900,70" "").map
        (fun r => (r.detectedColumns.boost, r.boostInterpretation.unit)) =
      .ok (some "boostpsi", some PUnitKind.kPa) :=
  ⟨by decide, by decide, by decide⟩

/-- C1 (amended): for every resolved boost column, unit detection uses the
value-range heuristic alone — the resolved column name plays no role.
With no valid values the unit is unknown; otherwise max ≤ 5 with min ≥ 0
gives bar, else 50 < max ≤ 400 gives kPa, else 5 < max ≤ 120 gives psi,
otherwise the unit is unknown. -/
theorem detect_unit_range_only :
    (∀ series, minMax series = none → (detectPressureUnit series).unit = none)
    ∧ (∀ series s, minMax series = some s →
        ((detectPressureUnit series).unit = some PUnitKind.bar ↔ (s.max ≤ 5 ∧ 0 ≤ s.min))
        ∧ ((detectPressureUnit series).unit = some PUnitKind.kPa ↔
            (¬(s.max ≤ 5 ∧ 0 ≤ s.min) ∧ 50 < s.max ∧ s.max ≤ 400))
        ∧ ((detectPressureUnit series).unit = some PUnitKind.psi ↔
            (¬(s.max ≤ 5 ∧ 0 ≤ s.min) ∧ ¬(50 < s.max ∧ s.max ≤ 400) ∧
              5 < s.max ∧ s.max ≤ 120))) := by
  constructor
  · intro series h
    simp [detectPressureUnit, h]
  · intro series s h
    simp only [detectPressureUnit, h]
    split_ifs with h1 h2 h3
    · exact ⟨iff_of_true rfl h1, iff_of_false (by simp) (fun hc => hc.1 h1),
        iff_of_false (by simp) (fun hc => hc.1 h1)⟩
    · exact ⟨iff_of_false (by simp) h1, iff_of_true rfl ⟨h1, h2⟩,
        iff_of_false (by simp) (fun hc => hc.2.1 h2)⟩
    · exact ⟨iff_of_false (by simp) h1, iff_of_false (by simp) (fun hc => h2 hc.2),
        iff_of_true rfl ⟨h1, h2, h3⟩⟩
    · exact ⟨iff_of_false (by simp) h1, iff_of_false (by simp) (fun hc => h2 hc.2),
        iff_of_false (by simp) (fun hc => h3 hc.2.2)⟩

/-- Witness for C1's amended theorem at a series with maximum 60. -/
theorem detect_unit_range_only_witness :
    (detectPressureUnit [some (60 : ℚ)]).unit = some PUnitKind.kPa ↔
      (¬((⟨60, 60, 1⟩ : MinMaxStats).max ≤ 5 ∧ 0 ≤ (⟨60, 60, 1⟩ : MinMaxStats).min) ∧
        50 < (⟨60, 60, 1⟩ : MinMaxStats).max ∧ (⟨60, 60, 1⟩ : MinMaxStats).max ≤ 400) :=
  (detect_unit_range_only.2 [some 60] ⟨60, 60, 1⟩ (by decide)).2.1

/-- C7 counterexample: the aggregator's output contains no average — two
series with different averages but equal min/max/count are
indistinguishable in `minMax`'s output, so no reading of that output can
produce the `avg` field the claim ascribes to it. -/
theorem minMax_no_avg_cex :
    ¬ ∃ g : Option MinMaxStats → Option StatSummarySpec,
        ∀ arr, g (minMax arr) = claimStatSummary arr := by
  rintro ⟨g, hg⟩
  have h1 := hg [some 0, some 4, some 4]
  have h2 := hg [some 0, some 0, some 4]
  have he : minMax [some 0, some 4, some 4] = minMax [some 0, some 0, some 4] := by decide
  rw [he, h2] at h1
  have : claimStatSummary [some 0, some 0, some 4] ≠ claimStatSummary [some 0, some 4, some 4] := by
    decide
  exact this h1

/-- C7 (amended): the aggregator filters out null entries and returns
`{ min, max, count }` in which `count` is the number of valid entries and
`min`/`max` are attained bounds over the valid entries only; it returns
`null` (never a zero-filled record) when no valid entry exists. The record
carries no `avg` field. -/
theorem minMax_valid_stats (arr : List (Option ℚ)) :
    (minMax arr = none ↔ (arr.filterMap id).length = 0)
    ∧ ∀ s, minMax arr = some s →
        s.count = (arr.filterMap id).length
        ∧ s.min ∈ arr.filterMap id ∧ s.max ∈ arr.filterMap id
        ∧ ∀ x ∈ arr.filterMap id, s.min ≤ x ∧ x ≤ s.max := by
  rw [minMax_eq]
  cases h : arr.filterMap id with
  | nil =>
    refine ⟨by simp, ?_⟩
    intro s hs
    exact Option.noConfusion hs
  | cons x xs =>
    refine ⟨by simp, ?_⟩
    intro s hs
    cases hs
    refine ⟨by simp, foldl_min_mem xs x, foldl_max_mem xs x, ?_⟩
    intro y hy
    exact ⟨foldl_min_le xs x y hy, le_foldl_max xs x y hy⟩

/-- Witness for C7's amended theorem at the series [1, null, 3]. -/
theorem minMax_valid_stats_witness :
    (⟨1, 3, 2⟩ : MinMaxStats).count = ([some (1 : ℚ), none, some 3].filterMap id).length
    ∧ (⟨1, 3, 2⟩ : MinMaxStats).min ∈ [some (1 : ℚ), none, some 3].filterMap id
    ∧ (⟨1, 3, 2⟩ : MinMaxStats).max ∈ [some (1 : ℚ), none, some 3].filterMap id
    ∧ ∀ x ∈ [some (1 : ℚ), none, some 3].filterMap id,
        (⟨1, 3, 2⟩ : MinMaxStats).min ≤ x ∧ x ≤ (⟨1, 3, 2⟩ : MinMaxStats).max :=
  (minMax_valid_stats _).2 ⟨1, 3, 2⟩ (by decide)

/-- C2: the absolute-vs-gauge decision classifies the converted psi series
as likely absolute iff its minimum lies strictly between 10 and 18 psi;
the decision is computed once from the full series and reused uniformly
(the row-aligned WOT gauge array compacts to exactly the full gauge
array); and for a kPa series whose minimum is 101.3 the decision is
"absolute" and the gauge-series minimum is within 0.01 of 0. -/
theorem boost_gauge_decision :
    (∀ o : Option MinMaxStats, likelyAbsolutePressurePsi o = true ↔
        ∃ s, o = some s ∧ 10 < s.min ∧ s.min < 18)
    ∧ (∀ raw u absL, boostGaugeList raw u absL = (wotGaugeAligned raw u absL).filterMap id)
    ∧ (∀ raw s, minMax raw = some s → s.min = 1013 / 10 →
        boostAbsLikely raw (some PUnitKind.kPa) = true
        ∧ ∃ g, minMaxQ (boostGaugeList raw (some PUnitKind.kPa)
              (boostAbsLikely raw (some PUnitKind.kPa))) = some g ∧ |g.min| ≤ 1 / 100) := by
  refine ⟨?_, ?_, ?_⟩
  · intro o
    cases o with
    | none => simp [likelyAbsolutePressurePsi]
    | some s =>
      simp only [likelyAbsolutePressurePsi, decide_eq_true_eq, Option.some.injEq]
      constructor
      · intro h
        exact ⟨s, rfl, h⟩
      · rintro ⟨s', hs', h⟩
        cases hs'
        exact h
  · intro raw u absL
    cases absL with
    | false =>
      simp only [boostGaugeList, wotGaugeAligned, boostPsiList, Bool.false_eq_true, if_false]
      refine congrArg (List.filterMap id) (List.map_congr_left ?_)
      intro v _
      cases pressureToPsi v u <;> rfl
    | true =>
      simp only [boostGaugeList, wotGaugeAligned, if_true, List.map_map]
      refine congrArg (List.filterMap id) (List.map_congr_left ?_)
      intro v _
      simp only [Function.comp_apply]
      cases pressureToPsi v u <;> rfl
  · intro raw s h hmin
    have hpsi0 : (fun v => pressureToPsi v (some PUnitKind.kPa)) =
        Option.map (fun x : ℚ => x * kpaToPsi) :=
      funext fun v => by cases v <;> rfl
    have hmono : Monotone (fun x : ℚ => x * kpaToPsi) := fun a b hab =>
      mul_le_mul_of_nonneg_right hab (by norm_num [kpaToPsi])
    have hpsiStats : minMaxQ (boostPsiList raw (some PUnitKind.kPa)) =
        some ⟨s.min * kpaToPsi, s.max * kpaToPsi, s.count⟩ := by
      unfold boostPsiList
      rw [hpsi0, minMaxQ_filterMap, minMax_map_mono hmono, h]
      rfl
    have habs : boostAbsLikely raw (some PUnitKind.kPa) = true := by
      unfold boostAbsLikely
      rw [hpsiStats]
      simp only [likelyAbsolutePressurePsi]
      rw [hmin]
      refine decide_eq_true ?_
      constructor <;> norm_num [kpaToPsi]
    refine ⟨habs, ?_⟩
    rw [habs]
    have hmono2 : Monotone (fun x : ℚ => x * kpaToPsi - atmPsi) := fun a b hab => by
      have hmul := mul_le_mul_of_nonneg_right hab (show (0 : ℚ) ≤ kpaToPsi by norm_num [kpaToPsi])
      simpa using sub_le_sub_right hmul atmPsi
    have hg0 : boostGaugeList raw (some PUnitKind.kPa) true =
        (raw.map (Option.map (fun x : ℚ => x * kpaToPsi - atmPsi))).filterMap id := by
      unfold boostGaugeList
      simp only [if_true, hpsi0, List.map_map]
      refine congrArg (List.filterMap id) (List.map_congr_left ?_)
      intro v _
      cases v <;> rfl
    refine ⟨⟨s.min * kpaToPsi - atmPsi, s.max * kpaToPsi - atmPsi, s.count⟩, ?_, ?_⟩
    · rw [hg0, minMaxQ_filterMap, minMax_map_mono hmono2, h]
      rfl
    · show |s.min * kpaToPsi - atmPsi| ≤ 1 / 100
      rw [hmin]
      rw [abs_le]
      constructor <;> norm_num [kpaToPsi, atmPsi]

/-- Witness for C2 at the kPa series [101.3, 200]. -/
theorem boost_gauge_decision_witness :
    boostAbsLikely [some ((1013 : ℚ) / 10), some 200] (some PUnitKind.kPa) = true
    ∧ ∃ g, minMaxQ (boostGaugeList [some ((1013 : ℚ) / 10), some 200] (some PUnitKind.kPa)
          (boostAbsLikely [some ((1013 : ℚ) / 10), some 200] (some PUnitKind.kPa))) = some g
        ∧ |g.min| ≤ 1 / 100 :=
  boost_gauge_decision.2.2 [some (1013 / 10), some 200] ⟨1013 / 10, 200, 2⟩ (by decide) rfl

set_option maxRecDepth 10000 in
/-- C4 counterexample: the scan window is the first 50 LINES, not the
first 50 non-empty lines. With 50 blank lines followed by the header-like
line "a,b,c", the code finds no header and the pipeline fails, while the
claim's first-50-non-empty-lines search selects line index 50. -/
theorem header_scan_nonempty_cex :
    findHeaderLineIndex (List.replicate 50 "" ++ ["a,b,c"]) = none
    ∧ claimFindHeaderNonEmpty (List.replicate 50 "" ++ ["a,b,c"]) = some 50
    ∧ normalizeLogCsv (String.mk (List.replicate 50 '\n') ++ "a,b,c") =
        .error .headerNotFound :=
  ⟨by decide, by decide, by decide⟩

/-- C4 (amended): header location scans only the first 50 lines (blank
lines are skipped but still consume the window); a line qualifies as
header-like iff its token count is ≥ 3 and the number of tokens failing
numeric coercion is ≥ max(2, floor(0.4 × tokenCount)); among qualifying
lines in the window the one with the most tokens is selected, ties broken
by the earliest line; and the pipeline fails with HeaderNotFound exactly
when no scanned line qualifies. -/
theorem header_scan_window :
    (∀ (lines : List String) i, findHeaderLineIndex lines = some i →
        i < 50 ∧ ∃ li, lines[i]? = some li ∧ hdrQualifies li = true ∧
          ∀ j lj, j < 50 → lines[j]? = some lj → hdrQualifies lj = true →
            hdrTokens lj ≤ hdrTokens li ∧ (hdrTokens li ≤ hdrTokens lj → i ≤ j))
    ∧ (∀ (lines : List String), findHeaderLineIndex lines = none ↔
        ∀ j lj, j < 50 → lines[j]? = some lj → hdrQualifies lj = false)
    ∧ (∀ line delim, looksLikeHeader line delim = true ↔
        (3 ≤ ((jsSplit line delim).map jsTrim).length ∧
          max 2 (((jsSplit line delim).map jsTrim).length * 4 / 10) ≤
            nonNumericCount ((jsSplit line delim).map jsTrim)))
    ∧ (∀ raw, normalizeLogCsv raw = .error .headerNotFound ↔
        findHeaderLineIndex (linesOf raw) = none) := by
  refine ⟨?_, ?_, ?_, ?_⟩
  · intro lines i h
    unfold findHeaderLineIndex at h
    obtain ⟨⟨i', sc⟩, hfold, hfst⟩ := Option.map_eq_some'.1 h
    cases hfst
    have hspec := (hdrFold_spec _ (enum_pairwise_lt (lines.take 50))).2 i' sc hfold
    obtain ⟨⟨p, hpmem, hp1, hpq, hsc⟩, hmaxim⟩ := hspec
    have hm := (mem_enum_take_iff lines p).1 hpmem
    refine ⟨hp1 ▸ hm.1, p.2, hp1 ▸ hm.2, hpq, ?_⟩
    intro j lj hj50 hjget hjq
    have hjmem : ((j, lj) : ℕ × String) ∈ (lines.take 50).enum :=
      (mem_enum_take_iff _ _).2 ⟨hj50, hjget⟩
    have hq := hmaxim (j, lj) hjmem hjq
    rw [← hsc]
    exact hq
  · intro lines
    unfold findHeaderLineIndex
    rw [Option.map_eq_none']
    rw [(hdrFold_spec _ (enum_pairwise_lt (lines.take 50))).1]
    constructor
    · intro hall j lj hj50 hjget
      exact hall (j, lj) ((mem_enum_take_iff _ _).2 ⟨hj50, hjget⟩)
    · intro hall p hpmem
      have hm := (mem_enum_take_iff lines p).1 hpmem
      exact hall p.1 p.2 hm.1 hm.2
  · intro line delim
    simp only [looksLikeHeader]
    split_ifs with h
    · refine iff_of_false (by simp) ?_
      rintro ⟨h3, _⟩
      omega
    · rw [decide_eq_true_eq]
      constructor
      · intro hc
        exact ⟨by omega, hc⟩
      · rintro ⟨_, hc⟩
        exact hc
  · intro raw
    cases hf : findHeaderLineIndex (linesOf raw) with
    | none => simp [normalizeLogCsv, hf]
    | some k =>
      simp only [normalizeLogCsv, hf]
      constructor
      · intro h
        exfalso
        revert h
        split_ifs <;> simp
      · intro h
        exact Option.noConfusion h

/-- Witness for C4's amended theorem at a two-line log. -/
theorem header_scan_window_witness :
    0 < 50 ∧ ∃ li, (["a,b,c", "1,2,3"] : List String)[0]? = some li ∧
      hdrQualifies li = true ∧
      ∀ j lj, j < 50 → (["a,b,c", "1,2,3"] : List String)[j]? = some lj →
        hdrQualifies lj = true →
        hdrTokens lj ≤ hdrTokens li ∧ (hdrTokens li ≤ hdrTokens lj → 0 ≤ j) :=
  header_scan_window.1 ["a,b,c", "1,2,3"] 0 (by decide)

-- End-to-end check of the pipeline on the round-trip log from the spec.
set_option maxRecDepth 100000 in
example :
    (analyze "Time,RPM,Pedal,Boost(kPa)\n0,800,10,101.3\n1,6000,95,210.0" "").map
      (fun r => (r.boostInterpretation, r.full.rpm, (r.wot.boostPsiGauge).map (·.count))) =
    .ok (⟨some "Boost(kPa)", some true, some .kPa⟩, some ⟨800, 6000, 2⟩, some 1) := by decide

end PasBackend
